import Mathlib

/-!
Shallow embedding of the Helfy authentication API server (`src/unnamed/part_000`)
and the CDC consumer's message processing (`src/cdc-consumer/src/index.js`).

Strings are modelled as `List Char` (`Str`) so that everything is computable
and decidable.  External collaborators (the bcrypt library, the UUID
generator, `JSON.parse`, wall-clock time) are passed in as explicit
parameters; the relational store is modelled as in-memory lists of rows.
-/

/-- All strings in the model are character lists, so equality is decidable
and concrete computations go through `decide`. -/
abbrev Str := List Char

/-- JavaScript truthiness of a possibly-absent string request field or
header: `undefined` and the empty string are falsy. -/
def jsTruthyStr (o : Option Str) : Bool :=
  match o with
  | none => false
  | some s => s ≠ []

/-- JSON values, used for request/response bodies and CDC messages. -/
inductive Json where
  | null : Json
  | bool (b : Bool) : Json
  | num (n : Int) : Json
  | str (s : Str) : Json
  | obj (fields : List (Str × Json)) : Json
deriving Repr

/-- JavaScript truthiness of a JSON value (`null`, `false`, `0` and `""`
are falsy; objects are truthy). -/
def Json.jsTruthy : Json → Bool
  | .null => false
  | .bool b => b
  | .num n => n ≠ 0
  | .str s => s ≠ []
  | .obj _ => true

/-- Field access `j.k` on a JSON value: `none` models `undefined`
(missing field, or access on a non-object). -/
def Json.getField (j : Json) (k : Str) : Option Json :=
  match j with
  | .obj fs => (fs.find? (fun f => f.1 == k)).map (fun f => f.2)
  | _ => none

/-- Models `v || d` in JavaScript where `v` may be `undefined`: the value when
present and truthy, else the default. -/
def jsOr (v : Option Json) (d : Json) : Json :=
  match v with
  | some x => if x.jsTruthy then x else d
  | none => d

-- ============================================
-- Store rows (tables `users` and `user_tokens`)
-- ============================================

/-- A row of the `users` table. -/
structure User where
  id : Nat
  email : Str
  username : Str
  password_hash : Str
deriving DecidableEq, Repr

/-- A row of the `user_tokens` table.  `expires_at` is a timestamp in
milliseconds. -/
structure TokenRow where
  user_id : Nat
  token : Str
  expires_at : Nat
deriving DecidableEq, Repr

/-- The relational store: the two tables plus the auto-increment counter
that produces `insertId` for `users`. -/
structure Store where
  users : List User
  tokens : List TokenRow
  nextId : Nat
deriving DecidableEq, Repr

-- ============================================
-- Store operations (the SQL statements issued by the handlers)
-- ============================================

/-- The query `SELECT * FROM users WHERE email = ? OR username = ?` followed by
taking `users[0]`. -/
def findUserByIdentifier (st : Store) (ident : Str) : Option User :=
  (st.users.filter (fun u => u.email == ident || u.username == ident)).head?

/-- The result rows of
`SELECT t.*, u.* FROM user_tokens t JOIN users u ON t.user_id = u.id
WHERE t.token = ? AND t.expires_at > NOW()` (row order as stored). -/
def validTokenRows (st : Store) (now : Nat) (tok : Str) : List (TokenRow × User) :=
  (st.tokens.filter (fun t => t.token == tok && decide (now < t.expires_at))).flatMap
    (fun t => (st.users.filter (fun u => u.id == t.user_id)).map (fun u => (t, u)))

/-- The statement `INSERT INTO user_tokens (user_id, token, expires_at) VALUES (?, ?, ?)`. -/
def insertToken (st : Store) (uid : Nat) (tok : Str) (exp : Nat) : Store :=
  { st with tokens := st.tokens ++ [⟨uid, tok, exp⟩] }

/-- The statement `DELETE FROM user_tokens WHERE token = ?`. -/
def deleteToken (st : Store) (tok : Str) : Store :=
  { st with tokens := st.tokens.filter (fun t => !(t.token == tok)) }

/-- Modelled from the spec: the database schema (absent from `src/`)
declares unique constraints on `users.email` and `users.username`
(§4.1: "the store enforces \x7buniqueness\x7d via unique constraints on
email/username/token"), so
`INSERT INTO users (email, username, password_hash) VALUES (?, ?, ?)`
fails (`none`, a thrown driver error) when a row with the same email or
username exists, and otherwise returns the new store and the `insertId`. -/
def insertUserUnique (st : Store) (e un h : Str) : Option (Store × Nat) :=
  if st.users.any (fun u => u.email == e || u.username == un) then none
  else
    some ({ st with
              users := st.users ++ [User.mk st.nextId e un h]
              nextId := st.nextId + 1 },
          st.nextId)

-- ============================================
-- Token transport (auth middleware, lines 107-133)
-- ============================================

/-- The string searched for by `authorization.replace('Bearer ', '')`. -/
def bearerStr : Str := "Bearer ".data

/-- JavaScript `s.replace(p, r)` with a string pattern: replaces only the
first occurrence of `p` in `s`, or returns `s` unchanged when absent. -/
def replaceFirst (p r : Str) : Str → Str
  | [] => if p.isPrefixOf [] then r else []
  | c :: cs =>
      if p.isPrefixOf (c :: cs) then r ++ (c :: cs).drop p.length
      else c :: replaceFirst p r cs

/-- The value of
`req.headers['x-auth-token'] || req.headers['authorization']?.replace('Bearer ', '')`:
`none` models `undefined`. -/
def extractedHeaderToken (xauth authz : Option Str) : Option Str :=
  match xauth with
  | some s => if s ≠ [] then some s else authz.map (replaceFirst bearerStr [])
  | none => authz.map (replaceFirst bearerStr [])

/-- The token the middleware actually uses: the extracted header value
unless it is falsy (`if (!token) return 401`). -/
def requestToken (xauth authz : Option Str) : Option Str :=
  match extractedHeaderToken xauth authz with
  | none => none
  | some s => if s = [] then none else some s

/-- The public user fields the middleware attaches to the request. -/
structure PublicUser where
  id : Nat
  email : Str
  username : Str
deriving DecidableEq, Repr

/-- Outcome of the auth middleware: missing token, no valid row, or
success with `req.user` and `req.token`. -/
inductive AuthResult where
  | noToken : AuthResult
  | invalidToken : AuthResult
  | ok (user : PublicUser) (token : Str) : AuthResult
deriving DecidableEq, Repr

/-- The function `authMiddleware` (src/unnamed/part_000 lines 107-133): extract the
token from the headers, reject if absent, look up an unexpired row
joined with its user, reject if none, else attach the public user. -/
def authMiddleware (st : Store) (now : Nat) (xauth authz : Option Str) : AuthResult :=
  match requestToken xauth authz with
  | none => .noToken
  | some tok =>
      match (validTokenRows st now tok).head? with
      | none => .invalidToken
      | some (_, u) => .ok ⟨u.id, u.email, u.username⟩ tok

-- ============================================
-- HTTP responses and route handlers
-- ============================================

/-- An HTTP response: status code and JSON body. -/
structure Resp where
  status : Nat
  body : Json
deriving Repr

/-- An error body `{ error: msg }`. -/
def errBody (msg : Str) : Json := .obj [("error".data, .str msg)]

/-- The success body `{ success: true, token, user: { id, email, username } }`
shared by login (200) and register (201). -/
def userSuccessBody (tok : Str) (uid : Nat) (e un : Str) : Json :=
  .obj [("success".data, .bool true), ("token".data, .str tok),
        ("user".data, .obj [("id".data, .num uid), ("email".data, .str e),
                            ("username".data, .str un)])]

/-- Token lifetime: `24 * 60 * 60 * 1000` milliseconds. -/
def tokenLifetimeMs : Nat := 24 * 60 * 60 * 1000

/-- Handler for `POST /api/auth/login` (lines 145-185).  `bc` models
`bcrypt.compare`, `freshTok` the `uuidv4()` result, `now` `Date.now()`.
Returns the response and the store after the request. -/
def login (bc : Str → Str → Bool) (st : Store) (now : Nat) (freshTok : Str)
    (email password : Option Str) : Resp × Store :=
  if !(jsTruthyStr email && jsTruthyStr password) then
    (⟨400, errBody "Email and password required".data⟩, st)
  else
    match findUserByIdentifier st (email.getD []) with
    | none => (⟨401, errBody "Invalid credentials".data⟩, st)
    | some u =>
        if !(bc (password.getD []) u.password_hash) then
          (⟨401, errBody "Invalid credentials".data⟩, st)
        else
          (⟨200, userSuccessBody freshTok u.id u.email u.username⟩,
           insertToken st u.id freshTok (now + tokenLifetimeMs))

/-- Handler for `POST /api/auth/register` (lines 188-231).  `hashOf` models
`bcrypt.hash(·, 10)`.  A uniqueness-constraint violation on the user
INSERT is caught by the handler's `try/catch` and surfaced as 500. -/
def register (hashOf : Str → Str) (st : Store) (now : Nat) (freshTok : Str)
    (email username password : Option Str) : Resp × Store :=
  if !(jsTruthyStr email && jsTruthyStr username && jsTruthyStr password) then
    (⟨400, errBody "All fields required".data⟩, st)
  else if (password.getD []).length < 6 then
    (⟨400, errBody "Password must be at least 6 characters".data⟩, st)
  else if ((st.users.filter (fun u =>
      u.email == email.getD [] || u.username == username.getD [])).head?).isSome then
    (⟨409, errBody "User already exists".data⟩, st)
  else
    match insertUserUnique st (email.getD []) (username.getD [])
        (hashOf (password.getD [])) with
    | none => (⟨500, errBody "Registration failed".data⟩, st)
    | some (st₁, uid) =>
        (⟨201, userSuccessBody freshTok uid (email.getD []) (username.getD [])⟩,
         insertToken st₁ uid freshTok (now + tokenLifetimeMs))

/-- Handler for `POST /api/auth/logout` (lines 234-242): gated by `authMiddleware`;
on success deletes the presented token. -/
def logout (st : Store) (now : Nat) (xauth authz : Option Str) : Resp × Store :=
  match authMiddleware st now xauth authz with
  | .noToken => (⟨401, errBody "No token provided".data⟩, st)
  | .invalidToken => (⟨401, errBody "Invalid or expired token".data⟩, st)
  | .ok _ tok => (⟨200, .obj [("success".data, .bool true)]⟩, deleteToken st tok)

-- ============================================
-- CDC consumer (src/cdc-consumer/src/index.js, lines 44-72)
-- ============================================

/-- The structured log line emitted by the CDC consumer for one
message. -/
structure CdcLogEntry where
  timestamp : Str
  source : Str
  topic : Str
  partition : Nat
  offset : Str
  operation : Json
  table : Json
  database : Json
  data : Json
deriving Repr

/-- The CDC consumer's `processMessage`: `parsed` models the result of
`JSON.parse(value)` (`none` when parsing throws, caught by the inner
`catch`, which falls back to `\x7b raw: value \x7d`); `nowIso` models
`new Date().toISOString()`.  The function is total: it always produces
exactly one log entry. -/
def processMessage (nowIso topic : Str) (partition : Nat) (offset : Str)
    (value : Str) (parsed : Option Json) : CdcLogEntry :=
  let d : Json :=
    match parsed with
    | some j => j
    | none => Json.obj [("raw".data, Json.str value)]
  { timestamp := nowIso
    source := "tidb-cdc".data
    topic := topic
    partition := partition
    offset := offset
    operation := jsOr (d.getField "type".data) (.str "UNKNOWN".data)
    table := jsOr (d.getField "table".data) (.str "unknown".data)
    database := jsOr (d.getField "database".data) (.str "helfy".data)
    data := jsOr (d.getField "data".data) d }

-- ============================================
-- Helper lemmas
-- ============================================

/-- The middleware's own 401 responses (lines 110-112 and 123-125):
`none` when the middleware calls `next()`. -/
def authRejectionResp : AuthResult → Option Resp
  | .noToken => some ⟨401, errBody "No token provided".data⟩
  | .invalidToken => some ⟨401, errBody "Invalid or expired token".data⟩
  | .ok _ _ => none

/-- Under referential integrity of `user_tokens.user_id`, the join in
the middleware query is empty exactly when no stored token row has the
given value and a still-future expiry. -/
theorem validTokenRows_eq_nil_iff (st : Store) (now : Nat) (tok : Str)
    (hfk : ∀ r ∈ st.tokens, ∃ u ∈ st.users, u.id = r.user_id) :
    validTokenRows st now tok = [] ↔
      ¬ ∃ r ∈ st.tokens, r.token = tok ∧ now < r.expires_at := by
  unfold validTokenRows
  rw [List.flatMap_eq_nil_iff]
  constructor
  · intro h
    rintro ⟨r, hr, hrtok, hrexp⟩
    have hrf : r ∈ st.tokens.filter
        (fun t => t.token == tok && decide (now < t.expires_at)) := by
      rw [List.mem_filter]
      exact ⟨hr, by simp [hrtok, hrexp]⟩
    have hnil := h r hrf
    rw [List.map_eq_nil_iff, List.filter_eq_nil_iff] at hnil
    obtain ⟨u, hu, huid⟩ := hfk r hr
    exact hnil u hu (by simp [huid])
  · intro h t ht
    rw [List.mem_filter] at ht
    exfalso
    apply h
    refine ⟨t, ht.1, ?_, ?_⟩
    · have := ht.2
      simp only [Bool.and_eq_true, beq_iff_eq, decide_eq_true_eq] at this
      exact this.1
    · have := ht.2
      simp only [Bool.and_eq_true, beq_iff_eq, decide_eq_true_eq] at this
      exact this.2

/-- With a nonempty token, the transport layer hands the middleware
exactly that token. -/
theorem requestToken_xauth (tok : Str) (htok : tok ≠ []) :
    requestToken (some tok) none = some tok := by
  simp [requestToken, extractedHeaderToken, htok]

/-- C1: for every (nonempty) presented token, the auth middleware
succeeds exactly when some stored token row carries that value with
`now` strictly before its expiry; otherwise it answers 401 (both when
the row is absent and once `now >= expiry`).  Referential integrity of
`user_tokens.user_id` (a foreign key of the schema) is assumed. -/
theorem authenticate_succeeds_iff_unexpired_row (st : Store) (now : Nat) (tok : Str)
    (htok : tok ≠ [])
    (hfk : ∀ r ∈ st.tokens, ∃ u ∈ st.users, u.id = r.user_id) :
    ((∃ pu, authMiddleware st now (some tok) none = .ok pu tok) ↔
       ∃ r ∈ st.tokens, r.token = tok ∧ now < r.expires_at) ∧
    ((¬ ∃ r ∈ st.tokens, r.token = tok ∧ now < r.expires_at) →
       ∃ resp, authRejectionResp (authMiddleware st now (some tok) none) = some resp ∧
         resp.status = 401) := by
  have hmid : authMiddleware st now (some tok) none =
      match (validTokenRows st now tok).head? with
      | none => .invalidToken
      | some (_, u) => .ok ⟨u.id, u.email, u.username⟩ tok := by
    unfold authMiddleware
    rw [requestToken_xauth tok htok]
  rcases hhead : (validTokenRows st now tok).head? with _ | ⟨t, u⟩
  · rw [List.head?_eq_none_iff, validTokenRows_eq_nil_iff st now tok hfk] at hhead
    constructor
    · constructor
      · rintro ⟨pu, hpu⟩
        rw [hmid] at hpu
        rw [List.head?_eq_none_iff.mpr] at hpu
        · exact absurd hpu (by simp)
        · rw [validTokenRows_eq_nil_iff st now tok hfk]
          exact hhead
      · intro hex; exact absurd hex hhead
    · intro _
      refine ⟨⟨401, errBody "Invalid or expired token".data⟩, ?_, rfl⟩
      rw [hmid, List.head?_eq_none_iff.mpr]
      · rfl
      · rw [validTokenRows_eq_nil_iff st now tok hfk]
        exact hhead
  · have hne : validTokenRows st now tok ≠ [] := by
      intro hnil
      rw [hnil] at hhead
      exact absurd hhead (by simp)
    have hex : ∃ r ∈ st.tokens, r.token = tok ∧ now < r.expires_at := by
      by_contra hno
      exact hne ((validTokenRows_eq_nil_iff st now tok hfk).mpr hno)
    constructor
    · constructor
      · intro _; exact hex
      · intro _
        exact ⟨⟨u.id, u.email, u.username⟩, by rw [hmid, hhead]⟩
    · intro hno; exact absurd hex hno

/-- Concrete run of the C1 theorem: a store with one user and one token
expiring at time 1000, queried at time 500. -/
def demoUser : User := ⟨1, "admin@helfy.com".data, "admin".data, "h1".data⟩

/-- A stored token for `demoUser`, expiring at millisecond 1000. -/
def demoTokenRow : TokenRow := ⟨1, "tok-1".data, 1000⟩

/-- A small concrete store used by the witnesses. -/
def demoStore : Store := ⟨[demoUser], [demoTokenRow], 2⟩

/-- Witness for C1 at the concrete store, presented token `tok-1` and
time 500. -/
theorem authenticate_succeeds_iff_unexpired_row_witness :
    ("tok-1".data ≠ ([] : Str)) ∧
    (∀ r ∈ demoStore.tokens, ∃ u ∈ demoStore.users, u.id = r.user_id) ∧
    (((∃ pu, authMiddleware demoStore 500 (some "tok-1".data) none = .ok pu "tok-1".data) ↔
       ∃ r ∈ demoStore.tokens, r.token = "tok-1".data ∧ 500 < r.expires_at) ∧
     ((¬ ∃ r ∈ demoStore.tokens, r.token = "tok-1".data ∧ 500 < r.expires_at) →
       ∃ resp, authRejectionResp (authMiddleware demoStore 500 (some "tok-1".data) none) =
           some resp ∧ resp.status = 401)) :=
  ⟨by decide, by decide,
   authenticate_succeeds_iff_unexpired_row demoStore 500 "tok-1".data
     (by decide) (by decide)⟩

/-- C2: the login failure for a nonexistent user and the failure for a
wrong password produce the very same response: 401 with body
`{ error: "Invalid credentials" }`. -/
theorem login_failures_indistinguishable
    (bc : Str → Str → Bool) (st₁ st₂ : Store) (now₁ now₂ : Nat) (tok₁ tok₂ : Str)
    (e₁ p₁ e₂ p₂ : Str) (u : User)
    (he₁ : e₁ ≠ []) (hp₁ : p₁ ≠ []) (he₂ : e₂ ≠ []) (hp₂ : p₂ ≠ [])
    (hnouser : findUserByIdentifier st₁ e₁ = none)
    (huser : findUserByIdentifier st₂ e₂ = some u)
    (hwrong : bc p₂ u.password_hash = false) :
    (login bc st₁ now₁ tok₁ (some e₁) (some p₁)).1 =
      (login bc st₂ now₂ tok₂ (some e₂) (some p₂)).1 ∧
    (login bc st₁ now₁ tok₁ (some e₁) (some p₁)).1 =
      ⟨401, errBody "Invalid credentials".data⟩ := by
  have h₁ : (login bc st₁ now₁ tok₁ (some e₁) (some p₁)).1 =
      ⟨401, errBody "Invalid credentials".data⟩ := by
    simp [login, jsTruthyStr, he₁, hp₁, hnouser]
  have h₂ : (login bc st₂ now₂ tok₂ (some e₂) (some p₂)).1 =
      ⟨401, errBody "Invalid credentials".data⟩ := by
    simp [login, jsTruthyStr, he₂, hp₂, huser, hwrong]
  exact ⟨h₁.trans h₂.symm, h₁⟩

/-- A concrete stand-in for `bcrypt.compare` that rejects every
password, used to exercise the wrong-password path. -/
def bcNever : Str → Str → Bool := fun _ _ => false

/-- Witness for C2: `nobody@x.com` is unknown in the demo store, and
`admin@helfy.com` exists but the comparator rejects the password. -/
theorem login_failures_indistinguishable_witness :
    findUserByIdentifier demoStore "nobody@x.com".data = none ∧
    findUserByIdentifier demoStore "admin@helfy.com".data = some demoUser ∧
    bcNever "wrong".data demoUser.password_hash = false ∧
    ((login bcNever demoStore 1 "t1".data (some "nobody@x.com".data) (some "pw".data)).1 =
       (login bcNever demoStore 2 "t2".data (some "admin@helfy.com".data) (some "wrong".data)).1 ∧
     (login bcNever demoStore 1 "t1".data (some "nobody@x.com".data) (some "pw".data)).1 =
       ⟨401, errBody "Invalid credentials".data⟩) :=
  ⟨by decide, by decide, rfl,
   login_failures_indistinguishable bcNever demoStore demoStore 1 2 "t1".data "t2".data
     "nobody@x.com".data "pw".data "admin@helfy.com".data "wrong".data demoUser
     (by decide) (by decide) (by decide) (by decide) (by decide) (by decide) rfl⟩

/-- After `DELETE FROM user_tokens WHERE token = ?`, the middleware
query for that token returns no rows, at any time. -/
theorem validTokenRows_deleteToken (st : Store) (now' : Nat) (tok : Str) :
    validTokenRows (deleteToken st tok) now' tok = [] := by
  unfold validTokenRows deleteToken
  simp only [List.filter_filter]
  rw [List.flatMap_eq_nil_iff]
  intro t ht
  rw [List.mem_filter] at ht
  have hpred := ht.2
  simp only [Bool.and_eq_true, Bool.not_eq_true', beq_iff_eq, decide_eq_true_eq] at hpred
  obtain ⟨⟨h1, _⟩, h2⟩ := hpred
  rw [h1] at h2
  simp at h2

/-- The middleware only ever attaches the very token extracted from the
`X-Auth-Token` header. -/
theorem requestToken_of_xauth_eq (tok t' : Str)
    (h : requestToken (some tok) none = some t') : t' = tok := by
  by_cases htok : tok = []
  · subst htok
    simp [requestToken, extractedHeaderToken] at h
  · rw [requestToken_xauth tok htok] at h
    exact (Option.some.inj h).symm

/-- On success via `X-Auth-Token`, `req.token` is the presented token. -/
theorem authMiddleware_ok_token (st : Store) (now : Nat) (tok : Str)
    (pu : PublicUser) (t' : Str)
    (h : authMiddleware st now (some tok) none = .ok pu t') : t' = tok := by
  unfold authMiddleware at h
  cases hr : requestToken (some tok) none with
  | none => rw [hr] at h; exact absurd h (by simp)
  | some s =>
    have hs : s = tok := requestToken_of_xauth_eq tok s hr
    rw [hr] at h
    dsimp only at h
    cases hh : (validTokenRows st now s).head? with
    | none => rw [hh] at h; exact absurd h (by simp)
    | some tu =>
      rw [hh] at h
      cases tu with
      | mk t u =>
        simp only [AuthResult.ok.injEq] at h
        exact h.2 ▸ hs

/-- A logout that answered 200 has deleted exactly the presented token's
rows from the store. -/
theorem logout_success_shape (st : Store) (now : Nat) (tok : Str)
    (h200 : (logout st now (some tok) none).1.status = 200) :
    (logout st now (some tok) none).2 = deleteToken st tok := by
  cases h : authMiddleware st now (some tok) none with
  | noToken => unfold logout at h200; rw [h] at h200; simp at h200
  | invalidToken => unfold logout at h200; rw [h] at h200; simp at h200
  | ok pu t' =>
    have ht : t' = tok := authMiddleware_ok_token st now tok pu t' h
    unfold logout
    rw [h, ht]

/-- A successful logout requires a nonempty presented token. -/
theorem logout_success_token_ne_nil (st : Store) (now : Nat) (tok : Str)
    (h200 : (logout st now (some tok) none).1.status = 200) : tok ≠ [] := by
  intro he
  subst he
  unfold logout authMiddleware requestToken extractedHeaderToken at h200
  simp at h200

/-- C3: after a successful `logout(t)`, authenticating with `t` at any
later time fails with the middleware's 401, and a second `logout(t)`
also answers 401. -/
theorem logout_then_authenticate_fails (st : Store) (now now₂ now₃ : Nat) (tok : Str)
    (h200 : (logout st now (some tok) none).1.status = 200) :
    authMiddleware (logout st now (some tok) none).2 now₂ (some tok) none =
      .invalidToken ∧
    authRejectionResp
        (authMiddleware (logout st now (some tok) none).2 now₂ (some tok) none) =
      some ⟨401, errBody "Invalid or expired token".data⟩ ∧
    (logout (logout st now (some tok) none).2 now₃ (some tok) none).1.status = 401 := by
  have htok : tok ≠ [] := logout_success_token_ne_nil st now tok h200
  have hst : (logout st now (some tok) none).2 = deleteToken st tok :=
    logout_success_shape st now tok h200
  have hmid : ∀ n : Nat, authMiddleware (deleteToken st tok) n (some tok) none =
      .invalidToken := by
    intro n
    unfold authMiddleware
    rw [requestToken_xauth tok htok]
    dsimp only
    rw [validTokenRows_deleteToken]
    rfl
  refine ⟨by rw [hst]; exact hmid now₂, by rw [hst, hmid now₂]; rfl, ?_⟩
  rw [hst]
  unfold logout
  rw [hmid now₃]

/-- Witness for C3: logging out `tok-1` from the demo store at time 500
succeeds, after which authentication and a second logout fail. -/
theorem logout_then_authenticate_fails_witness :
    (logout demoStore 500 (some "tok-1".data) none).1.status = 200 ∧
    (authMiddleware (logout demoStore 500 (some "tok-1".data) none).2 600
        (some "tok-1".data) none = .invalidToken ∧
     authRejectionResp (authMiddleware (logout demoStore 500 (some "tok-1".data) none).2 600
        (some "tok-1".data) none) =
       some ⟨401, errBody "Invalid or expired token".data⟩ ∧
     (logout (logout demoStore 500 (some "tok-1".data) none).2 700
        (some "tok-1".data) none).1.status = 401) :=
  ⟨by decide, logout_then_authenticate_fails demoStore 500 600 700 "tok-1".data (by decide)⟩

/-- Deleting one token value leaves the middleware query for any other
token value untouched. -/
theorem validTokenRows_deleteToken_other (st : Store) (n : Nat) (tok tok' : Str)
    (hne : tok' ≠ tok) :
    validTokenRows (deleteToken st tok) n tok' = validTokenRows st n tok' := by
  unfold validTokenRows deleteToken
  dsimp only
  rw [List.filter_filter]
  congr 1
  apply List.filter_congr
  intro a _
  by_cases h : a.token = tok'
  · simp [h, hne]
  · simp [h]

/-- C10: a successful `logout(t)` leaves every user row unchanged and
removes exactly the token rows whose value is `t`: every other token row
survives, and authentication with any other token value gives the same
outcome as before, at any time. -/
theorem logout_removes_only_that_token (st : Store) (now : Nat) (tok : Str)
    (h200 : (logout st now (some tok) none).1.status = 200) :
    (logout st now (some tok) none).2.users = st.users ∧
    (∀ r ∈ st.tokens, r.token ≠ tok → r ∈ (logout st now (some tok) none).2.tokens) ∧
    (∀ r ∈ (logout st now (some tok) none).2.tokens, r ∈ st.tokens ∧ r.token ≠ tok) ∧
    (∀ tok', tok' ≠ tok → ∀ n,
       authMiddleware (logout st now (some tok) none).2 n (some tok') none =
         authMiddleware st n (some tok') none) := by
  have hst := logout_success_shape st now tok h200
  rw [hst]
  refine ⟨rfl, ?_, ?_, ?_⟩
  · intro r hr hne
    show r ∈ (st.tokens.filter (fun t => !(t.token == tok)))
    rw [List.mem_filter]
    exact ⟨hr, by simp [hne]⟩
  · intro r hr
    have hr' : r ∈ st.tokens.filter (fun t => !(t.token == tok)) := hr
    rw [List.mem_filter] at hr'
    refine ⟨hr'.1, ?_⟩
    have hb := hr'.2
    simp only [Bool.not_eq_true', beq_eq_false_iff_ne, ne_eq] at hb
    exact hb
  · intro tok' hne n
    by_cases h' : tok' = []
    · subst h'
      have hreq : requestToken (some ([] : Str)) none = none := by decide
      unfold authMiddleware
      rw [hreq]
    · unfold authMiddleware
      rw [requestToken_xauth tok' h']
      dsimp only
      rw [validTokenRows_deleteToken_other st n tok tok' hne]

/-- A store with one user owning two tokens, for the C10 witness. -/
def demoStore₂ : Store := ⟨[demoUser], [demoTokenRow, ⟨1, "tok-2".data, 2000⟩], 2⟩

/-- Witness for C10: logging out `tok-1` in the two-token store keeps
the user rows and the `tok-2` row, and `tok-2` still authenticates. -/
theorem logout_removes_only_that_token_witness :
    (logout demoStore₂ 500 (some "tok-1".data) none).1.status = 200 ∧
    ((logout demoStore₂ 500 (some "tok-1".data) none).2.users = demoStore₂.users ∧
     (∀ r ∈ demoStore₂.tokens, r.token ≠ "tok-1".data →
        r ∈ (logout demoStore₂ 500 (some "tok-1".data) none).2.tokens) ∧
     (∀ r ∈ (logout demoStore₂ 500 (some "tok-1".data) none).2.tokens,
        r ∈ demoStore₂.tokens ∧ r.token ≠ "tok-1".data) ∧
     (∀ tok', tok' ≠ "tok-1".data → ∀ n,
        authMiddleware (logout demoStore₂ 500 (some "tok-1".data) none).2 n
            (some tok') none =
          authMiddleware demoStore₂ n (some tok') none)) :=
  ⟨by decide,
   logout_removes_only_that_token demoStore₂ 500 "tok-1".data (by decide)⟩

-- ============================================
-- C4: response bodies never carry the password hash
-- ============================================

mutual
/-- Every string occurring anywhere in a JSON value (keys and string
leaves). -/
def Json.strings : Json → List Str
  | .null => []
  | .bool _ => []
  | .num _ => []
  | .str s => [s]
  | .obj fs => Json.fieldStrings fs

/-- Strings of a field list. -/
def Json.fieldStrings : List (Str × Json) → List Str
  | [] => []
  | (k, v) :: t => k :: (Json.strings v ++ Json.fieldStrings t)
end

/-- The fixed strings (keys and literal messages) that can occur in a
login response body. -/
def loginConstStrings : List Str :=
  ["error".data, "Email and password required".data, "Invalid credentials".data,
   "success".data, "token".data, "user".data, "id".data, "email".data,
   "username".data]

/-- The fixed strings that can occur in a register response body. -/
def registerConstStrings : List Str :=
  ["error".data, "All fields required".data,
   "Password must be at least 6 characters".data, "User already exists".data,
   "Registration failed".data, "success".data, "token".data, "user".data,
   "id".data, "email".data, "username".data]

/-- A user returned by the identifier lookup is a stored user row. -/
theorem findUserByIdentifier_mem (st : Store) (ident : Str) (u : User)
    (h : findUserByIdentifier st ident = some u) : u ∈ st.users := by
  unfold findUserByIdentifier at h
  have hm : u ∈ st.users.filter
      (fun v => v.email == ident || v.username == ident) :=
    List.mem_of_mem_head? (by rw [Option.mem_def, h])
  exact (List.mem_filter.mp hm).1

/-- The strings of an error body are its key and its message. -/
theorem errBody_strings (msg : Str) :
    (errBody msg).strings = ["error".data, msg] := rfl

/-- The strings of a success body: the fixed keys, the token, and the
public email and username. -/
theorem userSuccessBody_strings (tok : Str) (uid : Nat) (e un : Str) :
    (userSuccessBody tok uid e un).strings =
      ["success".data, "token".data, tok, "user".data, "id".data,
       "email".data, e, "username".data, un] := rfl

/-- Every string in a login response body is a fixed literal, the fresh
token, or a public field (email/username) of a stored user. -/
theorem login_body_strings (bc : Str → Str → Bool) (st : Store) (now : Nat)
    (tok : Str) (email password : Option Str) :
    ∀ s ∈ ((login bc st now tok email password).1.body).strings,
      s ∈ loginConstStrings ∨ s = tok ∨
        ∃ u ∈ st.users, s = u.email ∨ s = u.username := by
  intro s hs
  unfold login at hs
  split at hs
  · rw [show ((⟨400, errBody "Email and password required".data⟩, st) :
        Resp × Store).1.body = errBody "Email and password required".data from rfl,
      errBody_strings] at hs
    simp only [List.mem_cons, List.not_mem_nil, or_false] at hs
    rcases hs with h | h <;> exact Or.inl (by subst h; decide)
  · split at hs
    next =>
      rw [show ((⟨401, errBody "Invalid credentials".data⟩, st) :
          Resp × Store).1.body = errBody "Invalid credentials".data from rfl,
        errBody_strings] at hs
      simp only [List.mem_cons, List.not_mem_nil, or_false] at hs
      rcases hs with h | h <;> exact Or.inl (by subst h; decide)
    next u hf =>
      have hu : u ∈ st.users := findUserByIdentifier_mem st (email.getD []) u hf
      split at hs
      · rw [show ((⟨401, errBody "Invalid credentials".data⟩, st) :
            Resp × Store).1.body = errBody "Invalid credentials".data from rfl,
          errBody_strings] at hs
        simp only [List.mem_cons, List.not_mem_nil, or_false] at hs
        rcases hs with h | h <;> exact Or.inl (by subst h; decide)
      · rw [show ((⟨200, userSuccessBody tok u.id u.email u.username⟩,
            insertToken st u.id tok (now + tokenLifetimeMs)) :
            Resp × Store).1.body = userSuccessBody tok u.id u.email u.username
            from rfl, userSuccessBody_strings] at hs
        simp only [List.mem_cons, List.not_mem_nil, or_false] at hs
        rcases hs with h | h | h | h | h | h | h | h | h
        · exact Or.inl (by subst h; decide)
        · exact Or.inl (by subst h; decide)
        · exact Or.inr (Or.inl h)
        · exact Or.inl (by subst h; decide)
        · exact Or.inl (by subst h; decide)
        · exact Or.inl (by subst h; decide)
        · exact Or.inr (Or.inr ⟨u, hu, Or.inl h⟩)
        · exact Or.inl (by subst h; decide)
        · exact Or.inr (Or.inr ⟨u, hu, Or.inr h⟩)

/-- Every string in a register response body is a fixed literal, the
fresh token, or a request field (the submitted email or username). -/
theorem register_body_strings (hashOf : Str → Str) (st : Store) (now : Nat)
    (tok : Str) (email username password : Option Str) :
    ∀ s ∈ ((register hashOf st now tok email username password).1.body).strings,
      s ∈ registerConstStrings ∨ s = tok ∨
        s = email.getD [] ∨ s = username.getD [] := by
  intro s hs
  unfold register at hs
  split at hs
  · rw [show ((⟨400, errBody "All fields required".data⟩, st) :
        Resp × Store).1.body = errBody "All fields required".data from rfl,
      errBody_strings] at hs
    simp only [List.mem_cons, List.not_mem_nil, or_false] at hs
    rcases hs with h | h <;> exact Or.inl (by subst h; decide)
  · split at hs
    · rw [show ((⟨400, errBody "Password must be at least 6 characters".data⟩, st) :
          Resp × Store).1.body =
            errBody "Password must be at least 6 characters".data from rfl,
        errBody_strings] at hs
      simp only [List.mem_cons, List.not_mem_nil, or_false] at hs
      rcases hs with h | h <;> exact Or.inl (by subst h; decide)
    · split at hs
      · rw [show ((⟨409, errBody "User already exists".data⟩, st) :
            Resp × Store).1.body = errBody "User already exists".data from rfl,
          errBody_strings] at hs
        simp only [List.mem_cons, List.not_mem_nil, or_false] at hs
        rcases hs with h | h <;> exact Or.inl (by subst h; decide)
      · split at hs
        next =>
          rw [show ((⟨500, errBody "Registration failed".data⟩, st) :
              Resp × Store).1.body = errBody "Registration failed".data from rfl,
            errBody_strings] at hs
          simp only [List.mem_cons, List.not_mem_nil, or_false] at hs
          rcases hs with h | h <;> exact Or.inl (by subst h; decide)
        next st₁ uid hins =>
          rw [show ((⟨201, userSuccessBody tok uid (email.getD [])
                (username.getD [])⟩,
              insertToken st₁ uid tok (now + tokenLifetimeMs)) :
              Resp × Store).1.body =
                userSuccessBody tok uid (email.getD []) (username.getD [])
              from rfl, userSuccessBody_strings] at hs
          simp only [List.mem_cons, List.not_mem_nil, or_false] at hs
          rcases hs with h | h | h | h | h | h | h | h | h
          · exact Or.inl (by subst h; decide)
          · exact Or.inl (by subst h; decide)
          · exact Or.inr (Or.inl h)
          · exact Or.inl (by subst h; decide)
          · exact Or.inl (by subst h; decide)
          · exact Or.inl (by subst h; decide)
          · exact Or.inr (Or.inr (Or.inl h))
          · exact Or.inl (by subst h; decide)
          · exact Or.inr (Or.inr (Or.inr h))

/-- C4: no login or register response body (success or failure) contains
the stored password hash, assuming only that the hash string collides
with no public datum (token, submitted fields, stored emails/usernames,
fixed literals) — which bcrypt output never does. -/
theorem responses_never_contain_password_hash
    (bc : Str → Str → Bool) (hashOf : Str → Str) (st : Store)
    (now₁ now₂ : Nat) (tok₁ tok₂ : Str)
    (le lp re run rp : Option Str) (hash : Str)
    (_hstored : (∃ u ∈ st.users, hash = u.password_hash) ∨
      hash = hashOf (rp.getD []))
    (hc₁ : hash ∉ loginConstStrings) (hc₂ : hash ∉ registerConstStrings)
    (ht₁ : hash ≠ tok₁) (ht₂ : hash ≠ tok₂)
    (hpub : ∀ u ∈ st.users, hash ≠ u.email ∧ hash ≠ u.username)
    (hre : hash ≠ re.getD []) (hrun : hash ≠ run.getD []) :
    hash ∉ ((login bc st now₁ tok₁ le lp).1.body).strings ∧
    hash ∉ ((register hashOf st now₂ tok₂ re run rp).1.body).strings := by
  constructor
  · intro hmem
    rcases login_body_strings bc st now₁ tok₁ le lp hash hmem with
      h | h | ⟨u, hu, h | h⟩
    · exact hc₁ h
    · exact ht₁ h
    · exact (hpub u hu).1 h
    · exact (hpub u hu).2 h
  · intro hmem
    rcases register_body_strings hashOf st now₂ tok₂ re run rp hash hmem with
      h | h | h | h
    · exact hc₂ h
    · exact ht₂ h
    · exact hre h
    · exact hrun h

/-- A concrete stand-in for `bcrypt.hash(·, 10)` used by witnesses. -/
def demoHashOf : Str → Str := fun p => "$2a$10$".data ++ p

/-- Witness for C4 at the demo store: the stored hash `h1` appears in no
login or register response body. -/
theorem responses_never_contain_password_hash_witness :
    ((∃ u ∈ demoStore.users, "h1".data = u.password_hash) ∨
       ("h1".data : Str) = demoHashOf ((some "secret1".data).getD [])) ∧
    ("h1".data ∉ loginConstStrings ∧ "h1".data ∉ registerConstStrings) ∧
    ("h1".data ∉ ((login bcNever demoStore 1 "t1".data (some "admin@helfy.com".data)
        (some "pw".data)).1.body).strings ∧
     "h1".data ∉ ((register demoHashOf demoStore 2 "t2".data (some "b@x.com".data)
        (some "bob".data) (some "secret1".data)).1.body).strings) :=
  ⟨by decide, ⟨by decide, by decide⟩,
   responses_never_contain_password_hash bcNever demoHashOf demoStore 1 2
     "t1".data "t2".data (some "admin@helfy.com".data) (some "pw".data)
     (some "b@x.com".data) (some "bob".data) (some "secret1".data) "h1".data
     (Or.inl ⟨demoUser, by decide, rfl⟩) (by decide) (by decide) (by decide)
     (by decide) (by decide) (by decide) (by decide)⟩

/-- C5: a register request whose password field is present but shorter
than 6 characters always fails with status 400 and leaves the store
completely unchanged (no user row, no token row). -/
theorem short_password_never_reaches_store
    (hashOf : Str → Str) (st : Store) (now : Nat) (tok : Str)
    (email username : Option Str) (p : Str) (hshort : p.length < 6) :
    (register hashOf st now tok email username (some p)).1.status = 400 ∧
    (register hashOf st now tok email username (some p)).2 = st := by
  constructor
  · unfold register
    split
    · rfl
    · rw [if_pos (show List.length ((some p).getD []) < 6 from hshort)]
  · unfold register
    split
    · rfl
    · rw [if_pos (show List.length ((some p).getD []) < 6 from hshort)]

/-- Witness for C5: registering with the 3-character password `abc`
fails with 400 and does not change the demo store. -/
theorem short_password_never_reaches_store_witness :
    ("abc".data : Str).length < 6 ∧
    ((register demoHashOf demoStore 3 "t3".data (some "c@x.com".data)
        (some "carol".data) (some "abc".data)).1.status = 400 ∧
     (register demoHashOf demoStore 3 "t3".data (some "c@x.com".data)
        (some "carol".data) (some "abc".data)).2 = demoStore) :=
  ⟨by decide,
   short_password_never_reaches_store demoHashOf demoStore 3 "t3".data
     (some "c@x.com".data) (some "carol".data) "abc".data (by decide)⟩

/-- A login that answered 200 found a user and appended exactly one
token row for it. -/
theorem login_200_shape (bc : Str → Str → Bool) (st : Store) (now : Nat)
    (tok : Str) (le lp : Option Str)
    (h200 : (login bc st now tok le lp).1.status = 200) :
    ∃ u : User, findUserByIdentifier st (le.getD []) = some u ∧
      login bc st now tok le lp =
        (⟨200, userSuccessBody tok u.id u.email u.username⟩,
         insertToken st u.id tok (now + tokenLifetimeMs)) := by
  unfold login at h200 ⊢
  split at h200
  next h1 => simp at h200
  next h1 =>
    split at h200
    next hf => simp at h200
    next u hf =>
      split at h200
      next h2 => simp at h200
      next h2 =>
        refine ⟨u, hf, ?_⟩
        rw [if_neg h1, if_neg h2]

/-- The user INSERT leaves the token table untouched. -/
theorem insertUserUnique_tokens (st : Store) (e un h : Str) (st₁ : Store)
    (uid : Nat) (hins : insertUserUnique st e un h = some (st₁, uid)) :
    st₁.tokens = st.tokens := by
  unfold insertUserUnique at hins
  split at hins
  · exact absurd hins (by simp)
  · have := (Option.some.inj hins)
    have h1 : st₁ = { st with users := st.users ++ [User.mk st.nextId e un h]
                              nextId := st.nextId + 1 } :=
      (congrArg Prod.fst this).symm
    rw [h1]

/-- A registration that answered 201 inserted the user and appended
exactly one token row for it. -/
theorem register_201_shape (hashOf : Str → Str) (st : Store) (now : Nat)
    (tok : Str) (re run rp : Option Str)
    (h201 : (register hashOf st now tok re run rp).1.status = 201) :
    ∃ st₁ uid,
      insertUserUnique st (re.getD []) (run.getD []) (hashOf (rp.getD [])) =
        some (st₁, uid) ∧
      register hashOf st now tok re run rp =
        (⟨201, userSuccessBody tok uid (re.getD []) (run.getD [])⟩,
         insertToken st₁ uid tok (now + tokenLifetimeMs)) := by
  unfold register at h201 ⊢
  split at h201
  next h1 => simp at h201
  next h1 =>
    split at h201
    next h2 => simp at h201
    next h2 =>
      split at h201
      next h3 => simp at h201
      next h3 =>
        split at h201
        next hins => simp at h201
        next st₁ uid hins =>
          refine ⟨st₁, uid, hins, ?_⟩
          rw [if_neg h1, if_neg h2, if_neg h3]

/-- C6: every token issued by a successful login (200) or registration
(201) is stored with expiry exactly the request time plus 24 hours
(`24*60*60*1000` milliseconds). -/
theorem issued_token_expires_in_24h
    (bc : Str → Str → Bool) (hashOf : Str → Str) (st : Store)
    (now₁ now₂ : Nat) (tok₁ tok₂ : Str) (le lp re run rp : Option Str) :
    ((login bc st now₁ tok₁ le lp).1.status = 200 →
       ∃ uid, (login bc st now₁ tok₁ le lp).2.tokens =
         st.tokens ++ [TokenRow.mk uid tok₁ (now₁ + 24 * 60 * 60 * 1000)]) ∧
    ((register hashOf st now₂ tok₂ re run rp).1.status = 201 →
       ∃ uid, (register hashOf st now₂ tok₂ re run rp).2.tokens =
         st.tokens ++ [TokenRow.mk uid tok₂ (now₂ + 24 * 60 * 60 * 1000)]) := by
  constructor
  · intro h200
    obtain ⟨u, _, hshape⟩ := login_200_shape bc st now₁ tok₁ le lp h200
    exact ⟨u.id, by rw [hshape]; rfl⟩
  · intro h201
    obtain ⟨st₁, uid, hins, hshape⟩ := register_201_shape hashOf st now₂ tok₂ re run rp h201
    refine ⟨uid, ?_⟩
    rw [hshape]
    show (insertToken st₁ uid tok₂ (now₂ + tokenLifetimeMs)).tokens = _
    unfold insertToken
    rw [insertUserUnique_tokens st (re.getD []) (run.getD [])
      (hashOf (rp.getD [])) st₁ uid hins]
    rfl

/-- A concrete stand-in for `bcrypt.compare` that accepts everything. -/
def bcAlways : Str → Str → Bool := fun _ _ => true

/-- Witness for C6: a successful login and a successful registration on
the demo store both append a token row expiring 24 hours later. -/
theorem issued_token_expires_in_24h_witness :
    ((login bcAlways demoStore 100 "t9".data (some "admin@helfy.com".data)
        (some "pw".data)).1.status = 200 ∧
     (register demoHashOf demoStore 100 "t8".data (some "b@x.com".data)
        (some "bob".data) (some "secret1".data)).1.status = 201) ∧
    ((∃ uid, (login bcAlways demoStore 100 "t9".data (some "admin@helfy.com".data)
        (some "pw".data)).2.tokens =
       demoStore.tokens ++ [TokenRow.mk uid "t9".data (100 + 24 * 60 * 60 * 1000)]) ∧
     (∃ uid, (register demoHashOf demoStore 100 "t8".data (some "b@x.com".data)
        (some "bob".data) (some "secret1".data)).2.tokens =
       demoStore.tokens ++ [TokenRow.mk uid "t8".data (100 + 24 * 60 * 60 * 1000)])) :=
  ⟨⟨by decide, by decide⟩,
   ⟨(issued_token_expires_in_24h bcAlways demoHashOf demoStore 100 100
       "t9".data "t8".data (some "admin@helfy.com".data) (some "pw".data)
       (some "b@x.com".data) (some "bob".data) (some "secret1".data)).1 (by decide),
    (issued_token_expires_in_24h bcAlways demoHashOf demoStore 100 100
       "t9".data "t8".data (some "admin@helfy.com".data) (some "pw".data)
       (some "b@x.com".data) (some "bob".data) (some "secret1".data)).2 (by decide)⟩⟩

-- ============================================
-- C8: the two token transports agree
-- ============================================

/-- A list is a `isPrefixOf`-prefix of itself followed by anything. -/
theorem isPrefixOf_append_self (l t : Str) : l.isPrefixOf (l ++ t) = true := by
  induction l with
  | nil => simp [List.isPrefixOf]
  | cons c cs ih => simp [List.isPrefixOf, ih]

/-- Stripping a first occurrence that sits at the very front leaves
exactly the remainder (`'Bearer x'.replace('Bearer ', '') = 'x'`). -/
theorem replaceFirst_append_self (p t : Str) : replaceFirst p [] (p ++ t) = t := by
  cases p with
  | nil =>
    cases t with
    | nil => rfl
    | cons c cs => simp [replaceFirst, List.isPrefixOf]
  | cons c cs =>
    have h := isPrefixOf_append_self (c :: cs) t
    rw [List.cons_append] at h
    rw [List.cons_append]
    simp only [replaceFirst, h, if_true, List.nil_append]
    rw [show (c :: (cs ++ t)) = (c :: cs) ++ t from rfl]
    exact List.drop_left _ _

/-- The header extraction yields the same token whether the client sends
`X-Auth-Token: t` or `Authorization: Bearer t`. -/
theorem requestToken_transports_agree (t : Str) :
    requestToken (some t) none = requestToken none (some ("Bearer ".data ++ t)) := by
  show requestToken (some t) none = requestToken none (some (bearerStr ++ t))
  by_cases ht : t = []
  · subst ht; decide
  · rw [requestToken_xauth t ht]
    unfold requestToken extractedHeaderToken
    dsimp only [Option.map]
    rw [replaceFirst_append_self]
    simp [ht]

/-- C8: for every token value and every store and time, presenting the
token as `X-Auth-Token: t` and as `Authorization: Bearer t` produce the
same middleware outcome (same lookup, same success or failure). -/
theorem token_transports_equivalent (st : Store) (now : Nat) (t : Str) :
    authMiddleware st now (some t) none =
      authMiddleware st now none (some ("Bearer ".data ++ t)) := by
  unfold authMiddleware
  rw [requestToken_transports_agree t]

-- ============================================
-- C9: CDC message processing
-- ============================================

/-- A parsed CDC message whose `type` field is present but falsy (the
empty string). -/
def cdcFalsyTypeMsg : Json :=
  .obj [("type".data, .str []), ("table".data, .str "users".data)]

/-- The spec's example CDC message
`{"type":"INSERT","table":"users","database":"helfy","data":{"id":1}}`. -/
def cdcInsertMsg : Json :=
  .obj [("type".data, .str "INSERT".data), ("table".data, .str "users".data),
        ("database".data, .str "helfy".data),
        ("data".data, .obj [("id".data, .num 1)])]

/-- C9 counterexample: a message whose `type` field is present (the
empty string) is logged with `operation = "UNKNOWN"`, not with the
field's value — `data.type || 'UNKNOWN'` falls back on every falsy
field, not only on absent ones. -/
theorem processMessage_falsy_type_counterexample :
    cdcFalsyTypeMsg.getField "type".data = some (Json.str []) ∧
    (processMessage "ts".data "tidb-cdc".data 0 "0".data "v".data
        (some cdcFalsyTypeMsg)).operation = Json.str "UNKNOWN".data ∧
    Json.str "UNKNOWN".data ≠ Json.str [] := by
  refine ⟨rfl, rfl, fun h => ?_⟩
  exact absurd (Json.str.inj h) (by decide)

/-- C9 (amended): `processMessage` is total — every message yields
exactly one log entry — and the entry's `operation` equals the parsed
message's `type` field when that field is present and truthy and
`"UNKNOWN"` when it is absent or falsy; `table` behaves the same way
with default `"unknown"`; a value that does not parse as JSON is logged
with `data = { raw: value }` and the defaults. -/
theorem processMessage_operation_table_fields
    (nowIso topic : Str) (partition : Nat) (offset : Str) (value : Str)
    (parsed : Option Json) :
    (∀ j v, parsed = some j → j.getField "type".data = some v →
       v.jsTruthy = true →
       (processMessage nowIso topic partition offset value parsed).operation = v) ∧
    (∀ j, parsed = some j →
       (j.getField "type".data = none ∨
         (∃ v, j.getField "type".data = some v ∧ v.jsTruthy = false)) →
       (processMessage nowIso topic partition offset value parsed).operation =
         .str "UNKNOWN".data) ∧
    (∀ j v, parsed = some j → j.getField "table".data = some v →
       v.jsTruthy = true →
       (processMessage nowIso topic partition offset value parsed).table = v) ∧
    (∀ j, parsed = some j →
       (j.getField "table".data = none ∨
         (∃ v, j.getField "table".data = some v ∧ v.jsTruthy = false)) →
       (processMessage nowIso topic partition offset value parsed).table =
         .str "unknown".data) ∧
    (parsed = none →
       (processMessage nowIso topic partition offset value parsed).data =
           Json.obj [("raw".data, Json.str value)] ∧
       (processMessage nowIso topic partition offset value parsed).operation =
           .str "UNKNOWN".data ∧
       (processMessage nowIso topic partition offset value parsed).table =
           .str "unknown".data) := by
  refine ⟨?_, ?_, ?_, ?_, ?_⟩
  · intro j v hp hg ht
    subst hp
    simp [processMessage, jsOr, hg, ht]
  · intro j hp hcase
    subst hp
    rcases hcase with hg | ⟨v, hg, hf⟩
    · simp [processMessage, jsOr, hg]
    · simp [processMessage, jsOr, hg, hf]
  · intro j v hp hg ht
    subst hp
    simp [processMessage, jsOr, hg, ht]
  · intro j hp hcase
    subst hp
    rcases hcase with hg | ⟨v, hg, hf⟩
    · simp [processMessage, jsOr, hg]
    · simp [processMessage, jsOr, hg, hf]
  · intro hp
    subst hp
    exact ⟨rfl, rfl, rfl⟩

/-- Witness for C9 at the spec's example message: the log entry carries
`operation = "INSERT"` and `table = "users"`. -/
theorem processMessage_operation_table_fields_witness :
    cdcInsertMsg.getField "type".data = some (.str "INSERT".data) ∧
    cdcInsertMsg.getField "table".data = some (.str "users".data) ∧
    (processMessage "ts".data "tidb-cdc".data 0 "0".data "v".data
        (some cdcInsertMsg)).operation = .str "INSERT".data ∧
    (processMessage "ts".data "tidb-cdc".data 0 "0".data "v".data
        (some cdcInsertMsg)).table = .str "users".data :=
  ⟨rfl, rfl,
   (processMessage_operation_table_fields "ts".data "tidb-cdc".data 0 "0".data
       "v".data (some cdcInsertMsg)).1 cdcInsertMsg (.str "INSERT".data)
     rfl rfl rfl,
   (processMessage_operation_table_fields "ts".data "tidb-cdc".data 0 "0".data
       "v".data (some cdcInsertMsg)).2.2.1 cdcInsertMsg (.str "users".data)
     rfl rfl rfl⟩

-- ============================================
-- C7: concurrent duplicate registration
-- ============================================

/-- The data of one in-flight registration request (fields already
validated; `hash` is the precomputed bcrypt output, `tok` the fresh
uuid, `exp` the expiry it will store). -/
structure RegReq where
  email : Str
  username : Str
  hash : Str
  tok : Str
  exp : Nat

/-- The control state of one concurrent registration request: about to
run its existence SELECT, holding that check's result, or finished with
an HTTP status. -/
inductive RegProc where
  | start : RegProc
  | checked (seen : Bool) : RegProc
  | done (status : Nat) : RegProc
deriving DecidableEq, Repr

/-- One atomic store interaction of a registration request, as issued by
the handler (lines 200-231): the duplicate-check SELECT; then either the
409 response, or the user INSERT — which succeeds (201, also appending
the token row) or hits the unique constraint, which the handler's
`catch` turns into a 500.  A finished request does not move. -/
def regStep (r : RegReq) (st : Store) : RegProc → RegProc × Store
  | .start =>
      (.checked ((st.users.filter
          (fun u => u.email == r.email || u.username == r.username)).head?.isSome),
       st)
  | .checked true => (.done 409, st)
  | .checked false =>
      match insertUserUnique st r.email r.username r.hash with
      | none => (.done 500, st)
      | some (st₁, uid) => (.done 201, insertToken st₁ uid r.tok r.exp)
  | .done s => (.done s, st)

/-- One scheduler step: `false` lets request A move, `true` lets
request B move. -/
def regSchedStep (ra rb : RegReq) (c : Store × RegProc × RegProc)
    (who : Bool) : Store × RegProc × RegProc :=
  if who then
    ((regStep rb c.1 c.2.2).2, c.2.1, (regStep rb c.1 c.2.2).1)
  else
    ((regStep ra c.1 c.2.1).2, (regStep ra c.1 c.2.1).1, c.2.2)

/-- Run two concurrent registrations under an arbitrary interleaving. -/
def regRun (ra rb : RegReq) (sched : List Bool)
    (c : Store × RegProc × RegProc) : Store × RegProc × RegProc :=
  sched.foldl (regSchedStep ra rb) c

/-- 1 for a request that answered 201, else 0. -/
def doneCount : RegProc → Nat
  | .done 201 => 1
  | _ => 0

/-- Per-request invariant: a request that saw the duplicate, answered
409, or answered 500 witnesses a user row in the store, and a finished
request answered 201, 409 or 500. -/
def regOk (st : Store) (p : RegProc) : Prop :=
  (p = .checked true → st.users ≠ []) ∧
  (p = .done 409 → st.users ≠ []) ∧
  (p = .done 500 → st.users ≠ []) ∧
  (∀ s, p = .done s → s = 201 ∨ s = 409 ∨ s = 500)

/-- Global invariant of the two-request race for email `e`, starting
from a store with no users: every user row carries email `e`, the rows
are exactly the successful (201) requests, there is at most one row, and
each request satisfies `regOk`. -/
def RegInv (e : Str) (c : Store × RegProc × RegProc) : Prop :=
  (∀ u ∈ c.1.users, u.email = e) ∧
  c.1.users.length = doneCount c.2.1 + doneCount c.2.2 ∧
  c.1.users.length ≤ 1 ∧
  regOk c.1 c.2.1 ∧
  regOk c.1 c.2.2

/-- Counterexample input A for C7. -/
def regReqA : RegReq := ⟨"a@x.com".data, "alice".data, "ha".data, "ta".data, 99⟩

/-- Counterexample input B for C7: same email as A. -/
def regReqB : RegReq := ⟨"a@x.com".data, "bob".data, "hb".data, "tb".data, 99⟩

/-- C7 counterexample: under the interleaving check-A, check-B,
insert-A, insert-B (both checks pass before either INSERT), request A
answers 201 but request B answers 500 — the handler's `catch` maps the
uniqueness-constraint violation to `Registration failed` (500), not to
`Conflict` (409). -/
theorem concurrent_duplicate_registration_counterexample :
    (regRun regReqA regReqB [false, true, false, true]
        (Store.mk [] [] 1, .start, .start)).2.1 = .done 201 ∧
    (regRun regReqA regReqB [false, true, false, true]
        (Store.mk [] [] 1, .start, .start)).2.2 = .done 500 ∧
    (500 : Nat) ≠ 409 := by
  refine ⟨?_, ?_, by decide⟩ <;> decide

/-- A duplicate-check that reported `true` saw at least one user row. -/
theorem checkSeen_ne_nil (st : Store) (pred : User → Bool)
    (h : (st.users.filter pred).head?.isSome = true) : st.users ≠ [] := by
  intro hnil
  rw [hnil] at h
  simp at h

/-- When every stored user carries email `e`, inserting another user
with email `e` hits the unique constraint as soon as any row exists. -/
theorem insertUserUnique_same_email_none (st : Store) (e un h : Str)
    (hall : ∀ u ∈ st.users, u.email = e) (hne : st.users ≠ []) :
    insertUserUnique st e un h = none := by
  have hany : st.users.any (fun u => u.email == e || u.username == un) = true := by
    rcases hx : st.users with _ | ⟨u, us⟩
    · exact absurd hx hne
    · rw [List.any_cons]
      have hu : u.email = e := hall u (by rw [hx]; exact List.mem_cons_self u us)
      simp [hu]
  unfold insertUserUnique
  rw [if_pos hany]

/-- The insert step of a request against an empty user table: it
succeeds and answers 201. -/
theorem regStep_checked_false_nil (r : RegReq) (st : Store)
    (hnil : st.users = []) :
    regStep r st (.checked false) =
      (.done 201,
       insertToken { st with users := [User.mk st.nextId r.email r.username r.hash]
                             nextId := st.nextId + 1 } st.nextId r.tok r.exp) := by
  unfold regStep insertUserUnique
  rw [hnil]
  rfl

/-- The insert step of a request against a nonempty same-email user
table: the constraint fires and the handler answers 500. -/
theorem regStep_checked_false_cons (r : RegReq) (st : Store) (e : Str)
    (her : r.email = e) (hall : ∀ u ∈ st.users, u.email = e)
    (hne : st.users ≠ []) :
    regStep r st (.checked false) = (.done 500, st) := by
  have hall' : ∀ u ∈ st.users, u.email = r.email := by
    intro u hu; rw [her]; exact hall u hu
  unfold regStep
  rw [insertUserUnique_same_email_none st r.email r.username r.hash hall' hne]

/-- One step of the first request preserves the race invariant. -/
theorem regStep_pres (e : Str) (r : RegReq) (her : r.email = e)
    (st : Store) (p q : RegProc)
    (hinv : RegInv e (st, p, q)) :
    RegInv e ((regStep r st p).2, (regStep r st p).1, q) := by
  obtain ⟨hall, hlen, hle, hp, hq⟩ := hinv
  have hall' : ∀ u ∈ st.users, u.email = e := hall
  have hlen' : st.users.length = doneCount p + doneCount q := hlen
  have hle' : st.users.length ≤ 1 := hle
  have hp' : regOk st p := hp
  have hq' : regOk st q := hq
  cases p with
  | start =>
    dsimp only [regStep]
    refine ⟨hall', hlen', hle', ⟨?_, ?_, ?_, ?_⟩, hq'⟩
    · intro h
      exact checkSeen_ne_nil st _ (RegProc.checked.inj h)
    · intro h
      exact nomatch h
    · intro h
      exact nomatch h
    · intro s h
      exact nomatch h
  | checked b =>
    cases b with
    | true =>
      dsimp only [regStep]
      refine ⟨hall', hlen', hle', ⟨?_, ?_, ?_, ?_⟩, hq'⟩
      · intro h
        exact nomatch h
      · intro _
        exact hp'.1 rfl
      · intro h
        exact absurd (RegProc.done.inj h) (by decide)
      · intro s h
        exact Or.inr (Or.inl (RegProc.done.inj h).symm)
    | false =>
      rcases hx : st.users with _ | ⟨u, us⟩
      · rw [regStep_checked_false_nil r st hx]
        have hq0 : doneCount q = 0 := by
          rw [hx] at hlen'
          simp only [List.length_nil] at hlen'
          omega
        have husers : (insertToken
            { st with users := [User.mk st.nextId r.email r.username r.hash]
                      nextId := st.nextId + 1 } st.nextId r.tok r.exp).users =
            [User.mk st.nextId r.email r.username r.hash] := rfl
        refine ⟨?_, ?_, ?_, ⟨?_, ?_, ?_, ?_⟩, ?_⟩
        · intro v hv
          rw [husers, List.mem_singleton] at hv
          rw [hv]
          exact her
        · rw [husers, hq0]
          rfl
        · rw [husers]
          exact le_refl 1
        · intro h
          exact nomatch h
        · intro h
          exact absurd (RegProc.done.inj h) (by decide)
        · intro h
          exact absurd (RegProc.done.inj h) (by decide)
        · intro s h
          exact Or.inl (RegProc.done.inj h).symm
        · obtain ⟨_, _, _, hq4⟩ := hq'
          refine ⟨?_, ?_, ?_, hq4⟩
          · intro _
            rw [husers]
            simp
          · intro _
            rw [husers]
            simp
          · intro _
            rw [husers]
            simp
      · have hne : st.users ≠ [] := by rw [hx]; simp
        rw [regStep_checked_false_cons r st e her hall' hne]
        refine ⟨hall', hlen', hle', ⟨?_, ?_, ?_, ?_⟩, hq'⟩
        · intro h
          exact nomatch h
        · intro h
          exact absurd (RegProc.done.inj h) (by decide)
        · intro _
          exact hne
        · intro s h
          exact Or.inr (Or.inr (RegProc.done.inj h).symm)
  | done s =>
    exact ⟨hall', hlen', hle', hp', hq'⟩

/-- The race invariant is symmetric in the two requests. -/
theorem RegInv_swap (e : Str) (st : Store) (p q : RegProc)
    (h : RegInv e (st, p, q)) : RegInv e (st, q, p) := by
  obtain ⟨h1, h2, h3, h4, h5⟩ := h
  refine ⟨h1, ?_, h3, h5, h4⟩
  have h2' : st.users.length = doneCount p + doneCount q := h2
  show st.users.length = doneCount q + doneCount p
  omega

/-- Any interleaving of the two registrations preserves the invariant. -/
theorem regRun_inv (ra rb : RegReq) (e : Str)
    (hea : ra.email = e) (heb : rb.email = e)
    (sched : List Bool) (c : Store × RegProc × RegProc)
    (hc : RegInv e c) : RegInv e (regRun ra rb sched c) := by
  induction sched generalizing c with
  | nil => exact hc
  | cons w ws ih =>
    apply ih
    cases w with
    | false =>
      exact regStep_pres e ra hea c.1 c.2.1 c.2.2 hc
    | true =>
      exact RegInv_swap e _ _ _
        (regStep_pres e rb heb c.1 c.2.2 c.2.1 (RegInv_swap e c.1 c.2.1 c.2.2 hc))

/-- C7 (amended): when two registrations with the same email race from a
store without that user, under every interleaving of their store
operations exactly one finishes with 201; the other finishes with 409
(its duplicate check saw the winner's row) or with 500 (both checks
passed and its INSERT hit the unique constraint, which the handler's
catch-all maps to `Registration failed`); and exactly one user row
exists afterwards. -/
theorem concurrent_duplicate_registration (ra rb : RegReq) (e : Str)
    (hea : ra.email = e) (heb : rb.email = e)
    (sched : List Bool) (sa sb : Nat)
    (hda : (regRun ra rb sched (Store.mk [] [] 1, .start, .start)).2.1 = .done sa)
    (hdb : (regRun ra rb sched (Store.mk [] [] 1, .start, .start)).2.2 = .done sb) :
    ((sa = 201 ∧ (sb = 409 ∨ sb = 500)) ∨
     (sb = 201 ∧ (sa = 409 ∨ sa = 500))) ∧
    (regRun ra rb sched (Store.mk [] [] 1, .start, .start)).1.users.length = 1 := by
  have hinit : RegInv e (Store.mk [] [] 1, .start, .start) := by
    refine ⟨?_, rfl, ?_, ?_, ?_⟩
    · intro u hu
      exact absurd hu (List.not_mem_nil u)
    · exact Nat.zero_le 1
    · refine ⟨?_, ?_, ?_, ?_⟩
      · intro h; exact nomatch h
      · intro h; exact nomatch h
      · intro h; exact nomatch h
      · intro s h; exact nomatch h
    · refine ⟨?_, ?_, ?_, ?_⟩
      · intro h; exact nomatch h
      · intro h; exact nomatch h
      · intro h; exact nomatch h
      · intro s h; exact nomatch h
  have hinv := regRun_inv ra rb e hea heb sched (Store.mk [] [] 1, .start, .start) hinit
  obtain ⟨hall, hlen, hle, hpA, hpB⟩ := hinv
  have hsA : sa = 201 ∨ sa = 409 ∨ sa = 500 := hpA.2.2.2 sa hda
  have hsB : sb = 201 ∨ sb = 409 ∨ sb = 500 := hpB.2.2.2 sb hdb
  set c := regRun ra rb sched (Store.mk [] [] 1, .start, .start) with hc
  have hlen' : c.1.users.length = doneCount c.2.1 + doneCount c.2.2 := hlen
  rw [hda, hdb] at hlen'
  have hne_of_409A : sa = 409 → c.1.users ≠ [] := by
    intro h409
    apply hpA.2.1
    rw [hda, h409]
  have hne_of_500A : sa = 500 → c.1.users ≠ [] := by
    intro h500
    apply hpA.2.2.1
    rw [hda, h500]
  have hne_of_409B : sb = 409 → c.1.users ≠ [] := by
    intro h409
    apply hpB.2.1
    rw [hdb, h409]
  have hne_of_500B : sb = 500 → c.1.users ≠ [] := by
    intro h500
    apply hpB.2.2.1
    rw [hdb, h500]
  rcases hsA with hA | hA | hA <;> rcases hsB with hB | hB | hB <;>
    subst hA <;> subst hB <;>
    simp only [doneCount] at hlen'
  · exact absurd hle (by omega)
  · exact ⟨Or.inl ⟨rfl, Or.inl rfl⟩, by omega⟩
  · exact ⟨Or.inl ⟨rfl, Or.inr rfl⟩, by omega⟩
  · exact ⟨Or.inr ⟨rfl, Or.inl rfl⟩, by omega⟩
  · have := hne_of_409A rfl
    rw [← List.length_pos_iff_ne_nil] at this
    omega
  · have := hne_of_409A rfl
    rw [← List.length_pos_iff_ne_nil] at this
    omega
  · exact ⟨Or.inr ⟨rfl, Or.inr rfl⟩, by omega⟩
  · have := hne_of_500A rfl
    rw [← List.length_pos_iff_ne_nil] at this
    omega
  · have := hne_of_500A rfl
    rw [← List.length_pos_iff_ne_nil] at this
    omega

/-- Witness for the amended C7: under the sequential interleaving the
first request wins with 201, the second observes the row and answers
409, and one user row remains. -/
theorem concurrent_duplicate_registration_witness :
    (regRun regReqA regReqB [false, false, true, true]
        (Store.mk [] [] 1, .start, .start)).2.1 = .done 201 ∧
    (regRun regReqA regReqB [false, false, true, true]
        (Store.mk [] [] 1, .start, .start)).2.2 = .done 409 ∧
    ((((201 : Nat) = 201 ∧ ((409 : Nat) = 409 ∨ (409 : Nat) = 500)) ∨
      ((409 : Nat) = 201 ∧ ((201 : Nat) = 409 ∨ (201 : Nat) = 500))) ∧
     (regRun regReqA regReqB [false, false, true, true]
        (Store.mk [] [] 1, .start, .start)).1.users.length = 1) :=
  ⟨by decide, by decide,
   concurrent_duplicate_registration regReqA regReqB "a@x.com".data rfl rfl
     [false, false, true, true] 201 409 (by decide) (by decide)⟩
